import Mathlib

/-!
Verification development for the `minimonk` document-store wrapper.

The repository ships three near-identical module variants of the same
wrapper class:
* `src/src/minimonk.ts` — lenient `idify`;
* `src/unnamed/part_000` — lenient `id`;
* `src/unnamed/part_001` — strict `idify` (throws on a malformed hex string).

This file shallowly embeds the identifier-coercion helpers, the
`findSmartPage` query composition, and the delegation layer of the
`Collection` class, and proves the claims of the specification about them.
The external `bson`/`monk` driver is not part of the repository; where its
behaviour is needed it is modelled from the description given in the specification of
the external interface (each such definition says so in its doc comment).
-/

namespace Minimonk

/-! ## Identifier model

Modelled from the spec: "Identifier wire format: 24-character lowercase
hexadecimal string ⇄ 12-byte opaque identifier."  The `bson` library that
implements `ObjectID` is an external collaborator whose source is not in
the repository, so its validity test and hex parsing/rendering are taken
from the wire-format description in the spec. -/

/-- The sixteen lowercase hexadecimal digits, in value order: digit `n`
is the character for value `n` (`0`–`9`, then `a`–`f`). -/
def hexChars : List Char :=
  (List.range 16).map (fun n => Char.ofNat (if n < 10 then 48 + n else 87 + n))

/-- Value of a lowercase hex digit (its position in `hexChars`). -/
def hexVal (c : Char) : Nat := hexChars.indexOf c

/-- Lowercase hex digit for a value `n < 16`. -/
def toHexDigit (n : Nat) : Char := hexChars.getD n '0'

/-- Parse pairs of hex digits into bytes (most significant digit first). -/
def parseHexBytes : List Char → List Nat
  | c1 :: c2 :: rest => (16 * hexVal c1 + hexVal c2) :: parseHexBytes rest
  | _ => []

/-- Render bytes as lowercase hex digit pairs. -/
def renderHexBytes : List Nat → List Char
  | [] => []
  | b :: rest => toHexDigit (b / 16) :: toHexDigit (b % 16) :: renderHexBytes rest

/-- A BSON object id: an opaque 12-byte value.  Modelled from the spec:
"Identifier: opaque 12-byte value, canonically represented as 24 hex
characters." -/
structure ObjectID where
  bytes : List Nat
deriving DecidableEq, Repr

/-- Modelled from the spec: validity of an identifier string — a
24-character lowercase hexadecimal string (the identifier wire format of the spec).  Stands in for the external `ObjectID.isValid`. -/
def ObjectID.isValid (s : String) : Bool :=
  s.length == 24 && s.data.all (fun c => hexChars.contains c)

/-- Modelled from the spec: parsing the 24-hex wire format into the
12-byte identifier.  Stands in for the external
`ObjectID.createFromHexString`. -/
def ObjectID.createFromHexString (s : String) : ObjectID :=
  ⟨parseHexBytes s.data⟩

/-- Modelled from the spec: canonical string representation of an
identifier, the lowercase 24-hex wire format. -/
def ObjectID.toHexString (o : ObjectID) : String :=
  ⟨renderHexBytes o.bytes⟩

/-! ## Identifier coercion (code of the repository)

Lenient variants: `idify` in `src/src/minimonk.ts` (lines 53–57) and `id`
in `src/unnamed/part_000` (lines 49–53), both
`str && ObjectID.isValid(str) ? ObjectID.createFromHexString(str) : null`.
`none` models a `null`/`undefined` argument; JavaScript truthiness of a
string is non-emptiness. -/

namespace Lenient

/-- Function `idify` of `src/src/minimonk.ts`: lenient coercion.  Total (the
function has no `throw` path), hence "never throws". -/
def idify : Option String → Option ObjectID
  | some s =>
      if !s.isEmpty && ObjectID.isValid s then some (ObjectID.createFromHexString s)
      else none
  | none => none

/-- Function `id` of `src/unnamed/part_000`: identical lenient coercion. -/
def id : Option String → Option ObjectID
  | some s =>
      if !s.isEmpty && ObjectID.isValid s then some (ObjectID.createFromHexString s)
      else none
  | none => none

end Lenient

/-- The error thrown by the strict `idify`
(`Invalid hex value <...> passed to idify`), carrying the offending
string. -/
inductive IdifyError where
  | invalidHex (offending : String)
deriving DecidableEq, Repr

/-- Runtime argument of the strict `idify`: `null`, `undefined`, a string,
or (via the back-compatibility safeguard) an `ObjectID` instance. -/
inductive IdInput where
  | nullv
  | undefined
  | str (s : String)
  | oid (o : ObjectID)
deriving DecidableEq, Repr

namespace Strict

/-- Function `idify` of `src/unnamed/part_001` (lines 53–61): strict coercion.
`Except.error` models the `throw`. -/
def idify : IdInput → Except IdifyError (Option ObjectID)
  | IdInput.oid o => Except.ok (some o)
  | IdInput.nullv => Except.ok none
  | IdInput.undefined => Except.ok none
  | IdInput.str s =>
      if ObjectID.isValid s then Except.ok (some (ObjectID.createFromHexString s))
      else Except.error (IdifyError.invalidHex s)

end Strict

/-! ## Query composition (`findSmartPage`, all three variants agree)

`src/src/minimonk.ts` lines 152–161, `src/unnamed/part_000` lines 147–156,
`src/unnamed/part_001` lines 174–183. -/

/-- A driver-native filter tree: an opaque caller filter (`base`), a
full-text clause `{$text: {$search: t}}`, or a conjunction `{$and: [...]}`. -/
inductive Filter where
  | base (n : Nat)
  | text (search : String)
  | and (clauses : List Filter)

/-- The raw identifier argument of a `*ById` operation: `id: string | ObjectID`. -/
inductive IdArg where
  | str (s : String)
  | oid (o : ObjectID)
deriving DecidableEq, Repr

/-- The `{_id: id}` query document built by every `*ById` operation. -/
structure IdFilter where
  _id : IdArg
deriving DecidableEq, Repr

/-- A query sent to the driver: either a filter tree or an `{_id: id}`
document. -/
inductive Query where
  | flt (f : Filter)
  | byId (q : IdFilter)

/-- Root filter composition: `rootFilter = { $and: [filter, ...(search ? [{ $text: { $search: search } }] : [])] }`.
JavaScript truthiness of `search : string | null | undefined`: the text
clause is spread in exactly when `search` is a non-empty string. -/
def composeRootFilter (filter : Filter) (search : Option String) : Filter :=
  Filter.and (filter ::
    (match search with
     | some s => if !s.isEmpty then [Filter.text s] else []
     | none => []))

/-- Sort spread `...(sort && sortOrder && { sort: { [sort]: sortOrder } })`: the sort
clause spread into the find options.  Present exactly when `sort` is a
non-empty string and `sortOrder` a non-zero number (JavaScript
truthiness). -/
def sortClause (sort : Option String) (sortOrder : Option Int) : Option (String × Int) :=
  match sort, sortOrder with
  | some s, some o => if !s.isEmpty && o != 0 then some (s, o) else none
  | _, _ => none

/-- Driver find options: optional sort clause, optional skip, optional
limit (absent limit means unlimited). -/
structure FindOptions where
  sort : Option (String × Int)
  skip : Option Int
  limit : Option Int
deriving DecidableEq, Repr

/-- The find options `findSmartPage` passes to the store:
`{...(sort && sortOrder && {sort: ...}), skip: (page - 1) * limit, limit}`. -/
def findSmartPageOptions (sort : Option String) (sortOrder : Option Int)
    (limit page : Int) : FindOptions :=
  { sort := sortClause sort sortOrder
    skip := some ((page - 1) * limit)
    limit := some limit }

/-- The query document a `*ById` operation delegates: the source builds
`{_id: id}` from the raw argument, with no coercion applied. -/
def findByIdQuery (id : IdArg) : IdFilter := ⟨id⟩

/-! ## Store model

Modelled from the spec: the external document store (driver) evaluates a
filter against each document, optionally sorts, then applies skip and
limit ("skip `(pageNumber - 1) * pageSize` documents, limit to `pageSize`
documents").  Documents carry an identifier (identifiers are opaque,
totally ordered values — abstracted here as `Nat`), the indexed free-text
content, and integer-valued fields used for sorting. -/

structure Doc where
  _id : Nat
  text : List String
  attrs : List (String × Int)
deriving DecidableEq, Repr

mutual

/-- Modelled from the spec: filter evaluation by the store.  `env`
interprets the opaque caller filters; a full-text clause matches documents
whose indexed text contains the search term. -/
def filterMatches (env : Nat → Doc → Bool) : Filter → Doc → Bool
  | Filter.base n, d => env n d
  | Filter.text t, d => d.text.contains t
  | Filter.and fs, d => filterMatchesAll env fs d

/-- Conjunction of a list of filters. -/
def filterMatchesAll (env : Nat → Doc → Bool) : List Filter → Doc → Bool
  | [], _ => true
  | f :: fs, d => filterMatches env f d && filterMatchesAll env fs d

end

/-- Value of a named field of a document, for sorting (`_id` is the
identifier; other fields are looked up in `attrs`). -/
def fieldVal (d : Doc) (f : String) : Int :=
  if f == "_id" then Int.ofNat d._id else ((d.attrs.lookup f).getD 0)

/-- Comparator realising a sort clause: direction `-1` sorts descending,
positive directions ascending (the encoding used by the spec: ascending = 1,
descending = -1). -/
def sortLE (f : String) (dir : Int) (a b : Doc) : Bool :=
  if dir < 0 then fieldVal b f ≤ fieldVal a f else fieldVal a f ≤ fieldVal b f

/-- Insert a document into a list sorted by `le` (stable insertion). -/
def insertBy (le : Doc → Doc → Bool) (d : Doc) : List Doc → List Doc
  | [] => [d]
  | e :: es => if le d e then d :: e :: es else e :: insertBy le d es

/-- Stable insertion sort by `le`. -/
def sortBy (le : Doc → Doc → Bool) : List Doc → List Doc
  | [] => []
  | d :: ds => insertBy le d (sortBy le ds)

/-- Modelled from the spec: the sort step of the store. -/
def applySort : Option (String × Int) → List Doc → List Doc
  | none, docs => docs
  | some (f, dir), docs => sortBy (sortLE f dir) docs

/-- Modelled from the spec: the find operation of the store — filter,
sort, skip, limit. -/
def storeFind (env : Nat → Doc → Bool) (docs : List Doc) (flt : Filter)
    (opts : FindOptions) : List Doc :=
  let selected := applySort opts.sort (docs.filter (filterMatches env flt))
  let skipped := selected.drop ((opts.skip.getD 0).toNat)
  match opts.limit with
  | none => skipped
  | some n => skipped.take n.toNat

/-- Modelled from the spec: the count operation of the store — the number of documents
matching the filter, ignoring pagination. -/
def storeCount (env : Nat → Doc → Bool) (docs : List Doc) (flt : Filter) : Nat :=
  (docs.filter (filterMatches env flt)).length

/-- Result type `PageResult<TSchema> = { total: number; items: TSchema[] }`. -/
structure PageResult where
  total : Nat
  items : List Doc
deriving DecidableEq, Repr

/-- Method `findSmartPage` run against the modelled store: compose the root
filter, count it, then fetch the page with the composed options. -/
def findSmartPage (env : Nat → Doc → Bool) (docs : List Doc) (filter : Filter)
    (search : Option String) (sort : Option String) (sortOrder : Option Int)
    (limit page : Int) : PageResult :=
  let rootFilter := composeRootFilter filter search
  { total := storeCount env docs rootFilter
    items := storeFind env docs rootFilter (findSmartPageOptions sort sortOrder limit page) }

/-! ## Delegation layer (`Collection` methods)

Each method wraps one driver call, mapping an empty/falsy driver result to
`null` via `.then(doc => doc || null)`.  The driver is abstract: any
record of query functions. -/

/-- Raw result of a driver single-document call: `undefined`, `null`, or a
document (JavaScript `doc || null` maps the first two — the falsy values —
to `null`). -/
inductive DriverResult where
  | undef
  | nullv
  | found (d : Doc)
deriving DecidableEq, Repr

/-- An opaque update document (`update` / `{$set}` payloads are passed
through untouched). -/
abbrev Update := Nat

/-- The external driver (the `ICollection` of monk), as an abstract record of
the calls the wrapped methods make. -/
structure Driver where
  findOne : Query → FindOptions → DriverResult
  findOneAndUpdate : Query → Update → DriverResult
  findOneAndDelete : Query → DriverResult
  count : Query → Option Nat → Nat

/-- Normalization `.then(doc => doc || null)`: normalize a falsy driver result to
`null`. -/
def orNull : DriverResult → Option Doc
  | DriverResult.found d => some d
  | DriverResult.nullv => none
  | DriverResult.undef => none

/-- Empty find options (no sort, skip, or limit). -/
def noOptions : FindOptions := ⟨none, none, none⟩

namespace Collection

/-- Method `findOne(filter, options)`. -/
def findOne (c : Driver) (flt : Filter) (opts : FindOptions) : Option Doc :=
  orNull (c.findOne (Query.flt flt) opts)

/-- Method `findById(id, options)`: delegates `{_id: id}` with the raw argument. -/
def findById (c : Driver) (id : IdArg) (opts : FindOptions) : Option Doc :=
  orNull (c.findOne (Query.byId (findByIdQuery id)) opts)

/-- Method `findLastOne(filter)`: delegates with `{sort: {_id: -1}, limit: 1}`. -/
def findLastOne (c : Driver) (flt : Filter) : Option Doc :=
  orNull (c.findOne (Query.flt flt) ⟨some ("_id", -1), none, some 1⟩)

/-- Method `findOneAndUpdate(filter, update, options)`. -/
def findOneAndUpdate (c : Driver) (flt : Filter) (u : Update) : Option Doc :=
  orNull (c.findOneAndUpdate (Query.flt flt) u)

/-- Method `findByIdAndSet(id, $set, options)`: delegates `{_id: id}` with the
raw argument. -/
def findByIdAndSet (c : Driver) (id : IdArg) (u : Update) : Option Doc :=
  orNull (c.findOneAndUpdate (Query.byId (findByIdQuery id)) u)

/-- Method `findOneAndDelete(filter, options)`. -/
def findOneAndDelete (c : Driver) (flt : Filter) : Option Doc :=
  orNull (c.findOneAndDelete (Query.flt flt))

/-- Method `findByIdAndDelete(id, options)`: delegates `{_id: id}` with the raw
argument. -/
def findByIdAndDelete (c : Driver) (id : IdArg) : Option Doc :=
  orNull (c.findOneAndDelete (Query.byId (findByIdQuery id)))

/-- Method `existsById(id)`: `count({_id: id}, {limit: 1}).then(count => !!count)`,
with the raw argument. -/
def existsById (c : Driver) (id : IdArg) : Bool :=
  c.count (Query.byId (findByIdQuery id)) (some 1) != 0

end Collection

/-- A driver backed by the modelled store: single-document filter queries
are answered by the head of `storeFind` (the driver returns `null` when
nothing matches).  `{_id: id}` queries carry a raw `string | ObjectID`
argument, which never equals any stored identifier in this model, so they
match nothing.  Modelled from the store interface given in the spec; used to relate
the delegation layer to store semantics. -/
def listDriver (env : Nat → Doc → Bool) (docs : List Doc) : Driver where
  findOne q opts :=
    match q with
    | Query.flt f =>
        match storeFind env docs f opts with
        | [] => DriverResult.nullv
        | d :: _ => DriverResult.found d
    | Query.byId _ => DriverResult.nullv
  findOneAndUpdate _ _ := DriverResult.nullv
  findOneAndDelete _ := DriverResult.nullv
  count q _ :=
    match q with
    | Query.flt f => storeCount env docs f
    | Query.byId _ => 0

/-- A driver whose every single-document call reports `null`. -/
def nullDriver : Driver :=
  ⟨fun _ _ => DriverResult.nullv, fun _ _ => DriverResult.nullv,
    fun _ => DriverResult.nullv, fun _ _ => 0⟩

/-- A driver result is absent (empty/falsy): `undefined` or `null`. -/
def absent (r : DriverResult) : Prop :=
  r = DriverResult.undef ∨ r = DriverResult.nullv

/-! ## Hex round-trip lemmas -/

lemma hexVal_lt {c : Char} (h : c ∈ hexChars) : hexVal c < 16 := by
  have h16 : hexChars.length = 16 := rfl
  have hlt := List.indexOf_lt_length.mpr h
  rw [h16] at hlt
  exact hlt

lemma toHexDigit_hexVal {c : Char} (h : c ∈ hexChars) : toHexDigit (hexVal c) = c := by
  have hlt : List.indexOf c hexChars < hexChars.length := List.indexOf_lt_length.mpr h
  unfold toHexDigit hexVal
  rw [List.getD_eq_getElem _ _ hlt, List.getElem_indexOf]

lemma render_parse_byte {c1 c2 : Char} (h1 : c1 ∈ hexChars) (h2 : c2 ∈ hexChars) :
    toHexDigit ((16 * hexVal c1 + hexVal c2) / 16) = c1 ∧
      toHexDigit ((16 * hexVal c1 + hexVal c2) % 16) = c2 := by
  have l2 := hexVal_lt h2
  constructor
  · rw [Nat.mul_add_div (by norm_num), Nat.div_eq_of_lt l2, Nat.add_zero]
    exact toHexDigit_hexVal h1
  · rw [Nat.mul_add_mod, Nat.mod_eq_of_lt l2]
    exact toHexDigit_hexVal h2

theorem renderHexBytes_parseHexBytes :
    ∀ l : List Char, (∀ c ∈ l, c ∈ hexChars) → l.length % 2 = 0 →
      renderHexBytes (parseHexBytes l) = l
  | [], _, _ => rfl
  | [c], _, hlen => by simp at hlen
  | c1 :: c2 :: l, hmem, hlen => by
      have h1 : c1 ∈ hexChars := hmem c1 (by simp)
      have h2 : c2 ∈ hexChars := hmem c2 (by simp)
      have hlen' : l.length % 2 = 0 := by
        simp only [List.length_cons] at hlen
        omega
      have ih := renderHexBytes_parseHexBytes l
        (fun c hc => hmem c (by simp [hc])) hlen'
      have hb := render_parse_byte h1 h2
      simp [parseHexBytes, renderHexBytes, hb.1, hb.2, ih]

/-- Wire-format round trip of the spec: rendering a parsed valid string
gives the string back. -/
theorem toHexString_createFromHexString {s : String} (h : ObjectID.isValid s = true) :
    ObjectID.toHexString (ObjectID.createFromHexString s) = s := by
  unfold ObjectID.isValid at h
  rw [Bool.and_eq_true] at h
  obtain ⟨hlen, hall⟩ := h
  have hlen' : s.data.length = 24 := by
    have hl : s.length = 24 := by simpa using hlen
    exact hl
  have hmem : ∀ c ∈ s.data, c ∈ hexChars := by
    intro c hc
    have := List.all_eq_true.mp hall c hc
    simpa using this
  show (⟨renderHexBytes (parseHexBytes s.data)⟩ : String) = s
  rw [renderHexBytes_parseHexBytes s.data hmem (by omega)]

/-! ## Sorting lemmas for the store model -/

lemma mem_insertBy {le : Doc → Doc → Bool} {d x : Doc} :
    ∀ {l : List Doc}, x ∈ insertBy le d l ↔ x = d ∨ x ∈ l := by
  intro l
  induction l with
  | nil => simp [insertBy]
  | cons e es ih =>
      by_cases h : le d e
      · simp [insertBy, h]
      · simp [insertBy, h, ih]
        tauto

lemma mem_sortBy {le : Doc → Doc → Bool} {x : Doc} :
    ∀ {l : List Doc}, x ∈ sortBy le l ↔ x ∈ l := by
  intro l
  induction l with
  | nil => simp [sortBy]
  | cons d ds ih => simp [sortBy, mem_insertBy, ih]

lemma insertBy_ne_nil {le : Doc → Doc → Bool} {d : Doc} :
    ∀ {l : List Doc}, insertBy le d l ≠ []
  | [] => by simp [insertBy]
  | e :: es => by
      by_cases h : le d e <;> simp [insertBy, h]

lemma sortBy_eq_nil_iff {le : Doc → Doc → Bool} :
    ∀ {l : List Doc}, sortBy le l = [] ↔ l = []
  | [] => by simp [sortBy]
  | d :: ds => by simp [sortBy, insertBy_ne_nil]

lemma sorted_insertBy {le : Doc → Doc → Bool}
    (htrans : ∀ a b c, le a b = true → le b c = true → le a c = true)
    (htotal : ∀ a b, (le a b || le b a) = true) (d : Doc) :
    ∀ {l : List Doc}, List.Pairwise (fun a b => le a b = true) l →
      List.Pairwise (fun a b => le a b = true) (insertBy le d l) := by
  intro l
  induction l with
  | nil => intro _; simp [insertBy]
  | cons e es ih =>
      intro hp
      rw [List.pairwise_cons] at hp
      obtain ⟨he, hes⟩ := hp
      by_cases h : le d e
      · rw [insertBy, if_pos h, List.pairwise_cons]
        refine ⟨?_, List.pairwise_cons.mpr ⟨he, hes⟩⟩
        intro x hx
        rcases List.mem_cons.mp hx with rfl | hx
        · exact h
        · exact htrans d e x h (he x hx)
      · have hed : le e d = true := by
          have := htotal d e
          rw [Bool.or_eq_true] at this
          rcases this with h' | h'
          · exact absurd h' h
          · exact h'
        rw [insertBy, if_neg h, List.pairwise_cons]
        refine ⟨?_, ih hes⟩
        intro x hx
        rcases mem_insertBy.mp hx with rfl | hx
        · exact hed
        · exact he x hx

lemma sorted_sortBy {le : Doc → Doc → Bool}
    (htrans : ∀ a b c, le a b = true → le b c = true → le a c = true)
    (htotal : ∀ a b, (le a b || le b a) = true) :
    ∀ (l : List Doc), List.Pairwise (fun a b => le a b = true) (sortBy le l)
  | [] => by simp [sortBy]
  | d :: ds => by
      rw [sortBy]
      exact sorted_insertBy htrans htotal d (sorted_sortBy htrans htotal ds)

/-- The descending `_id` comparator is transitive. -/
lemma sortLE_id_trans : ∀ a b c : Doc,
    sortLE "_id" (-1) a b = true → sortLE "_id" (-1) b c = true →
      sortLE "_id" (-1) a c = true := by
  intro a b c
  simp only [sortLE, if_pos (by norm_num : (-1 : Int) < 0), decide_eq_true_eq]
  omega

/-- The descending `_id` comparator is total. -/
lemma sortLE_id_total : ∀ a b : Doc,
    (sortLE "_id" (-1) a b || sortLE "_id" (-1) b a) = true := by
  intro a b
  simp only [sortLE, if_pos (by norm_num : (-1 : Int) < 0), Bool.or_eq_true,
    decide_eq_true_eq]
  omega

/-- Projection `fieldVal` at `"_id"` is the identifier. -/
lemma fieldVal_id (d : Doc) : fieldVal d "_id" = Int.ofNat d._id := rfl

/-! ## Claim theorems -/

/-- C3: strict identifier coercion (`idify` of `src/unnamed/part_001`):
`null` and `undefined` map to `null`; an identifier instance passes
through unchanged; a string that is not a valid 24-hex identifier fails
with an `InvalidIdentifier` error carrying the offending value; a valid
24-hex string is parsed and returned. -/
theorem strict_idify_policy (o : ObjectID) (s t : String)
    (hs : ObjectID.isValid s = false) (ht : ObjectID.isValid t = true) :
    Strict.idify IdInput.nullv = Except.ok none ∧
    Strict.idify IdInput.undefined = Except.ok none ∧
    Strict.idify (IdInput.oid o) = Except.ok (some o) ∧
    Strict.idify (IdInput.str s) = Except.error (IdifyError.invalidHex s) ∧
    Strict.idify (IdInput.str t) = Except.ok (some (ObjectID.createFromHexString t)) := by
  refine ⟨rfl, rfl, rfl, ?_, ?_⟩ <;> simp [Strict.idify, hs, ht]

/-- Witness for C3 at `s = "zzz"`, `t = "0123456789abcdef01234567"`. -/
theorem strict_idify_policy_witness :
    ObjectID.isValid "zzz" = false ∧
    ObjectID.isValid "0123456789abcdef01234567" = true ∧
    Strict.idify (IdInput.str "zzz") =
      Except.error (IdifyError.invalidHex "zzz") :=
  ⟨by decide, by decide,
    (strict_idify_policy ⟨[]⟩ "zzz" "0123456789abcdef01234567"
      (by decide) (by decide)).2.2.2.1⟩

/-- C4: lenient identifier coercion (`idify` of `src/src/minimonk.ts` and
`id` of `src/unnamed/part_000`): `null`/`undefined` and every string that
is not a valid 24-hex identifier map to `null`.  Both functions are total
(`Option`-valued, no error path), so they never throw. -/
theorem lenient_idify_policy (s : String) (hs : ObjectID.isValid s = false) :
    Lenient.idify none = none ∧
    Lenient.id none = none ∧
    Lenient.idify (some s) = none ∧
    Lenient.id (some s) = none := by
  refine ⟨rfl, rfl, ?_, ?_⟩ <;> simp [Lenient.idify, Lenient.id, hs]

/-- Witness for C4 at `s = "not24hex"`. -/
theorem lenient_idify_policy_witness :
    ObjectID.isValid "not24hex" = false ∧
    Lenient.idify (some "not24hex") = none ∧
    Lenient.id (some "not24hex") = none :=
  ⟨by decide, (lenient_idify_policy "not24hex" (by decide)).2.2.1,
    (lenient_idify_policy "not24hex" (by decide)).2.2.2⟩

/-- C8: for every valid 24-hex string `s`, strict coercion returns an
identifier whose canonical string representation round-trips back to
`s`. -/
theorem strict_idify_roundtrip (s : String) (h : ObjectID.isValid s = true) :
    Strict.idify (IdInput.str s) =
      Except.ok (some (ObjectID.createFromHexString s)) ∧
    ObjectID.toHexString (ObjectID.createFromHexString s) = s :=
  ⟨by simp [Strict.idify, h], toHexString_createFromHexString h⟩

/-- Witness for C8 at `s = "0123456789abcdef01234567"`. -/
theorem strict_idify_roundtrip_witness :
    ObjectID.isValid "0123456789abcdef01234567" = true ∧
    ObjectID.toHexString
      (ObjectID.createFromHexString "0123456789abcdef01234567") =
      "0123456789abcdef01234567" :=
  ⟨by decide,
    (strict_idify_roundtrip "0123456789abcdef01234567" (by decide)).2⟩

/-- C1 counterexample: with no search term the effective filter sent to
the store is `{$and: [filter]}` — a `$and` wrapper IS added — so it does
not equal the filter of the caller exactly. -/
theorem composeRootFilter_wraps_cex :
    composeRootFilter (Filter.base 0) none = Filter.and [Filter.base 0] ∧
    Filter.and [Filter.base 0] ≠ Filter.base 0 :=
  ⟨rfl, fun h => Filter.noConfusion h⟩

/-- C1 (amended): the effective filter is the conjunction of the filter of the
caller and a full-text predicate exactly when the search term is a
non-empty string; when the search term is `null`/`undefined` or empty the
effective filter is the singleton conjunction `{$and: [filter]}`
(semantically the filter of the caller, but still wrapped in `$and`). -/
theorem composeRootFilter_composition (f : Filter) (t : String)
    (ht : t.isEmpty = false) :
    composeRootFilter f none = Filter.and [f] ∧
    composeRootFilter f (some "") = Filter.and [f] ∧
    composeRootFilter f (some t) = Filter.and [f, Filter.text t] := by
  refine ⟨rfl, rfl, ?_⟩
  simp [composeRootFilter, ht]

/-- Witness for C1 (amended) at `f = base 0`, `t = "hello"`. -/
theorem composeRootFilter_composition_witness :
    "hello".isEmpty = false ∧
    composeRootFilter (Filter.base 0) (some "hello") =
      Filter.and [Filter.base 0, Filter.text "hello"] :=
  ⟨rfl, (composeRootFilter_composition (Filter.base 0) "hello" rfl).2.2⟩

/-- C5 counterexample: with `sortField = "name"` and `sortDirection = 2` a
sort clause IS passed to the store although `2 ∉ {1, -1}` — the code tests
JavaScript truthiness, not membership in `{1, -1}`. -/
theorem sortClause_direction_two_cex :
    (findSmartPageOptions (some "name") (some 2) 10 1).sort =
      some ("name", 2) ∧
    ¬((2 : Int) = 1 ∨ (2 : Int) = -1) :=
  ⟨rfl, by decide⟩

/-- C5 (amended): a sort clause is passed to the store if and only if both
`sortField` and `sortDirection` are provided, `sortField` is a non-empty
string and `sortDirection` is a non-zero number (JavaScript truthiness);
in particular `sortDirection = 0` or an omitted `sortField`/`sortDirection`
disables sorting even when the other argument is set. -/
theorem sortClause_truthiness (sort : Option String) (ord : Option Int)
    (limit page : Int) :
    (findSmartPageOptions sort ord limit page).sort = sortClause sort ord ∧
    ((sortClause sort ord).isSome ↔
      ∃ s o, sort = some s ∧ ord = some o ∧ s.isEmpty = false ∧ o ≠ 0) ∧
    sortClause sort (some 0) = none ∧
    sortClause none ord = none ∧
    sortClause sort none = none := by
  refine ⟨rfl, ?_, ?_, ?_, ?_⟩
  · cases sort with
    | none => simp [sortClause]
    | some s =>
        cases ord with
        | none => simp [sortClause]
        | some o =>
            rcases hse : s.isEmpty with _ | _ <;>
              rcases ho : (o == 0) with _ | _ <;>
                simp_all [sortClause]
  · cases sort with
    | none => rfl
    | some s => simp [sortClause]
  · cases ord <;> rfl
  · cases sort <;> rfl

/-- C6: the skip offset passed to the store equals
`(pageNumber - 1) * pageSize`; `pageNumber = 1` gives skip `0` for every
`pageSize`, and `pageNumber = 3`, `pageSize = 10` gives skip `20`. -/
theorem findSmartPage_skip_offset (sort : Option String) (ord : Option Int)
    (limit page : Int) (_hpage : 1 ≤ page) :
    (findSmartPageOptions sort ord limit page).skip =
      some ((page - 1) * limit) ∧
    (findSmartPageOptions sort ord limit 1).skip = some 0 ∧
    (findSmartPageOptions sort ord 10 3).skip = some 20 := by
  refine ⟨rfl, ?_, ?_⟩ <;> norm_num [findSmartPageOptions]

/-- Witness for C6 at `pageNumber = 3`, `pageSize = 10`. -/
theorem findSmartPage_skip_offset_witness :
    (1 : Int) ≤ 3 ∧ (findSmartPageOptions none none 10 3).skip = some 20 :=
  ⟨by norm_num, (findSmartPage_skip_offset none none 10 3 (by norm_num)).2.2⟩

lemma orNull_absent {r : DriverResult} (h : absent r) : orNull r = none := by
  rcases h with rfl | rfl <;> rfl

/-- C2 counterexample: `findById` of the strict module variant
(`src/unnamed/part_001`) called with the malformed id string `"zzz"`
delegates the raw string in the `{_id: "zzz"}` query and returns `null` —
it does not run the identifier through coercion and does not throw,
although strict coercion of `"zzz"` fails with `InvalidIdentifier`. -/
theorem findById_skips_coercion_cex :
    findByIdQuery (IdArg.str "zzz") = IdFilter.mk (IdArg.str "zzz") ∧
    Collection.findById nullDriver (IdArg.str "zzz") noOptions = none ∧
    Strict.idify (IdInput.str "zzz") =
      Except.error (IdifyError.invalidHex "zzz") :=
  ⟨rfl, rfl, by simp [Strict.idify, show ObjectID.isValid "zzz" = false from by decide]⟩

/-- C2 (amended): every `*ById` operation (`findById`, `existsById`,
`findByIdAndSet`, `findByIdAndDelete`) passes its identifier argument
unchanged in the `{_id: id}` query it delegates to the store — no
Identifier Coercion is applied in any module variant; a malformed id
string is delegated raw (in the store model it matches no document, so the
lookup reports no match), and the strict module variant returns null
rather than throwing `InvalidIdentifier`. -/
theorem byId_raw_delegation (c : Driver) (id : IdArg) (u : Update)
    (opts : FindOptions) (env : Nat → Doc → Bool) (docs : List Doc)
    (s : String) :
    findByIdQuery id = IdFilter.mk id ∧
    Collection.findById c id opts =
      orNull (c.findOne (Query.byId (IdFilter.mk id)) opts) ∧
    Collection.existsById c id =
      (c.count (Query.byId (IdFilter.mk id)) (some 1) != 0) ∧
    Collection.findByIdAndSet c id u =
      orNull (c.findOneAndUpdate (Query.byId (IdFilter.mk id)) u) ∧
    Collection.findByIdAndDelete c id =
      orNull (c.findOneAndDelete (Query.byId (IdFilter.mk id))) ∧
    Collection.findById (listDriver env docs) (IdArg.str s) opts = none :=
  ⟨rfl, rfl, rfl, rfl, rfl, rfl⟩

/-- C9: every single-document lookup operation (`findOne`, `findById`,
`findLastOne`, `findOneAndUpdate`, `findByIdAndSet`, `findOneAndDelete`,
`findByIdAndDelete`) maps an empty/falsy driver result (`undefined` or
`null`) to an explicit `null` return; all are total functions in the
embedding (the source has no throw path), so absence never throws. -/
theorem lookup_absence_normalization (c : Driver) (flt : Filter)
    (id : IdArg) (u : Update) (opts : FindOptions) :
    (absent (c.findOne (Query.flt flt) opts) →
      Collection.findOne c flt opts = none) ∧
    (absent (c.findOne (Query.byId (IdFilter.mk id)) opts) →
      Collection.findById c id opts = none) ∧
    (absent (c.findOne (Query.flt flt) ⟨some ("_id", -1), none, some 1⟩) →
      Collection.findLastOne c flt = none) ∧
    (absent (c.findOneAndUpdate (Query.flt flt) u) →
      Collection.findOneAndUpdate c flt u = none) ∧
    (absent (c.findOneAndUpdate (Query.byId (IdFilter.mk id)) u) →
      Collection.findByIdAndSet c id u = none) ∧
    (absent (c.findOneAndDelete (Query.flt flt)) →
      Collection.findOneAndDelete c flt = none) ∧
    (absent (c.findOneAndDelete (Query.byId (IdFilter.mk id))) →
      Collection.findByIdAndDelete c id = none) :=
  ⟨fun h => orNull_absent h, fun h => orNull_absent h, fun h => orNull_absent h,
    fun h => orNull_absent h, fun h => orNull_absent h, fun h => orNull_absent h,
    fun h => orNull_absent h⟩

/-- Witness for C9: the all-`null` driver, `findOne` with an opaque
filter. -/
theorem lookup_absence_normalization_witness :
    absent (Driver.findOne nullDriver (Query.flt (Filter.base 0)) noOptions) ∧
    Collection.findOne nullDriver (Filter.base 0) noOptions = none :=
  ⟨Or.inr rfl,
    (lookup_absence_normalization nullDriver (Filter.base 0) (IdArg.str "")
      0 noOptions).1 (Or.inr rfl)⟩

/-- C7: the items returned by `findSmartPage` number at most `pageSize`;
`pageSize = 0` yields an empty items list together with the count of all
documents matching the composed filter. -/
theorem findSmartPage_page_bound (env : Nat → Doc → Bool) (docs : List Doc)
    (f : Filter) (search : Option String) (sort : Option String)
    (ord : Option Int) (limit page : Int) :
    (findSmartPage env docs f search sort ord limit page).items.length ≤
      limit.toNat ∧
    (findSmartPage env docs f search sort ord 0 page).items = [] ∧
    (findSmartPage env docs f search sort ord 0 page).total =
      storeCount env docs (composeRootFilter f search) := by
  refine ⟨?_, ?_, rfl⟩
  · simp only [findSmartPage, storeFind, findSmartPageOptions, List.length_take]
    exact min_le_left _ _
  · simp [findSmartPage, storeFind, findSmartPageOptions]

/-- Evaluating `storeFind` under the options used by `findLastOne`: sort the matches descending
by `_id` and keep the first. -/
lemma storeFind_lastOpts (env : Nat → Doc → Bool) (docs : List Doc)
    (flt : Filter) :
    storeFind env docs flt ⟨some ("_id", -1), none, some 1⟩ =
      (sortBy (sortLE "_id" (-1)) (docs.filter (filterMatches env flt))).take 1 := by
  simp [storeFind, applySort]

/-- C10: `findLastOne(filter)` queries the store with `{sort: {_id: -1},
limit: 1}`; against the modelled store it returns `null` exactly when no
document matches, and otherwise a matching document whose `_id` is
greatest among the matches. -/
theorem findLastOne_greatest_id (env : Nat → Doc → Bool) (docs : List Doc)
    (flt : Filter) :
    (∀ c : Driver, Collection.findLastOne c flt =
        orNull (c.findOne (Query.flt flt) ⟨some ("_id", -1), none, some 1⟩)) ∧
    (Collection.findLastOne (listDriver env docs) flt = none ↔
        ∀ d ∈ docs, filterMatches env flt d = false) ∧
    (∀ d, Collection.findLastOne (listDriver env docs) flt = some d →
        d ∈ docs ∧ filterMatches env flt d = true ∧
        ∀ e ∈ docs, filterMatches env flt e = true → e._id ≤ d._id) := by
  refine ⟨fun _ => rfl, ?_, ?_⟩
  · rcases hcase : sortBy (sortLE "_id" (-1)) (docs.filter (filterMatches env flt))
      with _ | ⟨d0, rest⟩
    · have hm : docs.filter (filterMatches env flt) = [] :=
        sortBy_eq_nil_iff.mp hcase
      have hnone : Collection.findLastOne (listDriver env docs) flt = none := by
        simp [Collection.findLastOne, listDriver, storeFind_lastOpts, hcase, orNull]
      rw [hnone]
      simp only [true_iff]
      intro d hd
      have := List.filter_eq_nil_iff.mp hm d hd
      revert this
      cases filterMatches env flt d <;> simp
    · have hd0 : d0 ∈ docs.filter (filterMatches env flt) := by
        have : d0 ∈ sortBy (sortLE "_id" (-1)) (docs.filter (filterMatches env flt)) := by
          rw [hcase]; exact List.mem_cons_self d0 rest
        exact mem_sortBy.mp this
      have hsome : Collection.findLastOne (listDriver env docs) flt = some d0 := by
        simp [Collection.findLastOne, listDriver, storeFind_lastOpts, hcase, orNull]
      rw [hsome]
      constructor
      · intro h; exact Option.noConfusion h
      · intro hall
        have hmem := List.mem_filter.mp hd0
        rw [hall d0 hmem.1] at hmem
        exact Bool.noConfusion hmem.2
  · intro d hd
    rcases hcase : sortBy (sortLE "_id" (-1)) (docs.filter (filterMatches env flt))
      with _ | ⟨d0, rest⟩
    · have : Collection.findLastOne (listDriver env docs) flt = none := by
        simp [Collection.findLastOne, listDriver, storeFind_lastOpts, hcase, orNull]
      rw [this] at hd
      exact Option.noConfusion hd
    · have hsome : Collection.findLastOne (listDriver env docs) flt = some d0 := by
        simp [Collection.findLastOne, listDriver, storeFind_lastOpts, hcase, orNull]
      rw [hsome] at hd
      obtain rfl : d0 = d := Option.some.inj hd
      have hd0 : d0 ∈ docs.filter (filterMatches env flt) := by
        have : d0 ∈ sortBy (sortLE "_id" (-1)) (docs.filter (filterMatches env flt)) := by
          rw [hcase]; exact List.mem_cons_self d0 rest
        exact mem_sortBy.mp this
      have hmem := List.mem_filter.mp hd0
      refine ⟨hmem.1, hmem.2, ?_⟩
      intro e he hme
      have hesort : e ∈ sortBy (sortLE "_id" (-1)) (docs.filter (filterMatches env flt)) :=
        mem_sortBy.mpr (List.mem_filter.mpr ⟨he, hme⟩)
      rw [hcase] at hesort
      rcases List.mem_cons.mp hesort with rfl | hrest
      · exact Nat.le_refl _
      · have hp := sorted_sortBy sortLE_id_trans sortLE_id_total
          (docs.filter (filterMatches env flt))
        rw [hcase] at hp
        have hle := (List.pairwise_cons.mp hp).1 e hrest
        simp only [sortLE, if_pos (by norm_num : (-1 : Int) < 0),
          decide_eq_true_eq, fieldVal_id] at hle
        exact Int.ofNat_le.mp hle

/-- Witness for C10: two documents, the one with the greater identifier is
returned. -/
theorem findLastOne_greatest_id_witness :
    Collection.findLastOne
        (listDriver (fun _ _ => true) [⟨1, [], []⟩, ⟨2, [], []⟩])
        (Filter.base 0) = some ⟨2, [], []⟩ ∧
    (⟨2, [], []⟩ : Doc) ∈ [(⟨1, [], []⟩ : Doc), ⟨2, [], []⟩] ∧
    filterMatches (fun _ _ => true) (Filter.base 0) ⟨2, [], []⟩ = true := by
  have hval : Collection.findLastOne
      (listDriver (fun _ _ => true) [⟨1, [], []⟩, ⟨2, [], []⟩])
      (Filter.base 0) = some ⟨2, [], []⟩ := by
    simp [Collection.findLastOne, listDriver, storeFind_lastOpts,
      filterMatches, sortBy, insertBy, sortLE, fieldVal, orNull]
  have h := (findLastOne_greatest_id (fun _ _ => true)
    [⟨1, [], []⟩, ⟨2, [], []⟩] (Filter.base 0)).2.2 ⟨2, [], []⟩ hval
  exact ⟨hval, h.1, h.2.1⟩

end Minimonk
